import Mathlib

/-!
Verification of the event-canonicalization and cross-tool reconciliation core of the
alternative-splicing benchmarking pipeline (scripts/rmats_parser.py, scripts/majiq_parser.py,
scripts/psisigma_parser.py, scripts/dse_annotation.py, scripts/dse_parser.py,
scripts/integration_dse.py).

The Python sources operate on pandas DataFrames of string-valued cells.  The shallow
embedding below models
  * a DataFrame row as a structure of string (or rational) fields,
  * Python `str.split` / `int(...)` / `float(...)` / regular-expression matching as
    total functions on `List Char` returning `Option` where the source can fail,
  * a caught Python exception (`try ... except`) as `Option.none`,
  * pandas `NaN` (from `pd.to_numeric(..., errors="coerce")`) as `Option.none`,
  * floating-point statistics columns as `ℚ` (the thresholds 0.01/0.05/0.95/5/95 and the
    decimal inputs in question are exactly representable, and only order comparisons occur).
-/

/-! ### Models of Python string and number primitives -/

/-- Model of Python `s.split(sep)` for a one-character separator, on char lists:
splits at every occurrence of `sep`, keeping empty chunks. -/
def splitCharList (sep : Char) : List Char → List (List Char)
  | [] => [[]]
  | c :: cs =>
    if c = sep then [] :: splitCharList sep cs
    else (c :: (splitCharList sep cs).headD []) :: (splitCharList sep cs).tail

/-- Numeric value of a decimal digit character. -/
def digitVal (c : Char) : ℕ := c.toNat - 48

/-- Value of a big-endian decimal digit string. -/
def digitsVal (l : List Char) : ℕ := l.foldl (fun a c => 10 * a + digitVal c) 0

/-- Decimal digit character of a digit value. -/
def dChar : ℕ → Char
  | 0 => '0' | 1 => '1' | 2 => '2' | 3 => '3' | 4 => '4'
  | 5 => '5' | 6 => '6' | 7 => '7' | 8 => '8' | _ => '9'

/-- Big-endian decimal digit characters of `n` (fuel-based so that it computes in the
kernel; the fuel `n` always suffices since a number has at most `n` digits). -/
def natCharsAux : ℕ → ℕ → List Char
  | 0, n => [dChar n]
  | fuel+1, n => if n < 10 then [dChar n] else natCharsAux fuel (n / 10) ++ [dChar (n % 10)]

/-- Big-endian decimal digit characters of `n`. -/
def natChars (n : ℕ) : List Char := natCharsAux n n

/-- Decimal string of a natural number; used to render hand-constructed raw inputs. -/
def natRepr (n : ℕ) : String := String.mk (natChars n)

/-- Model of Python `int(s)` on char lists: an optional sign followed by a nonempty
run of decimal digits; anything else raises `ValueError`, modelled as `none`. -/
def pyIntL : List Char → Option ℤ
  | [] => none
  | c :: cs =>
    if c = '-' then
      if cs ≠ [] ∧ cs.all Char.isDigit then some (-(digitsVal cs : ℤ)) else none
    else if (c :: cs).all Char.isDigit then some ((digitsVal (c :: cs) : ℤ)) else none

/-- Model of Python `int(s)` on strings. -/
def pyInt (s : String) : Option ℤ := pyIntL s.data

/-- Model of Python `s.isdigit()`: nonempty and all decimal digits. -/
def pyIsdigit (l : List Char) : Bool := l ≠ [] && l.all Char.isDigit

/-- Model of Python `s.lower().startswith("chr")`. -/
def lowerStartsWithChr (l : List Char) : Bool :=
  match l.map Char.toLower with
  | 'c' :: 'h' :: 'r' :: _ => true
  | _ => false

/-- Model of the chromosome normalization `if Chr.lower().startswith("chr"): Chr = Chr[3:]`
shared by rmats_parser.py and psisigma_parser.py. -/
def pyStripChr (s : String) : String :=
  if lowerStartsWithChr s.data then String.mk (s.data.drop 3) else s

/-- Model of Python strip of all leading and trailing double-quote characters. -/
def pyStripQuotes (s : String) : String :=
  String.mk ((((s.data.dropWhile (· = '"')).reverse).dropWhile (· = '"')).reverse)

/-- Model of the anchored regular expression match `re.match(r'^"(ENSG[^"]+)"$', s)`:
succeeds iff `s` is `"ENSG…"` in literal double quotes with at least one further
non-quote character, returning the unquoted group. -/
def matchQuotedENSG (l : List Char) : Option (List Char) :=
  match l with
  | [] => none
  | c :: rest =>
    if c = '"' then
      match rest.dropLast, rest.getLast? with
      | 'E' :: 'N' :: 'S' :: 'G' :: tail, some q =>
        if q = '"' ∧ tail ≠ [] ∧ tail.all (· ≠ '"') then
          some ('E' :: 'N' :: 'S' :: 'G' :: tail)
        else none
      | _, _ => none
    else none

/-- Gene-accession normalization shared by rmats_parser.py and psisigma_parser.py:
extract the quoted `ENSG…` group if the anchored pattern matches, else strip any
surrounding double quotes. -/
def normGeneQuoted (s : String) : String :=
  match matchQuotedENSG s.data with
  | some g => String.mk g
  | none => pyStripQuotes s

/-- Model of `re.search(r'ENSG\d+', s)` used by majiq_parser.py: the earliest
occurrence of `ENSG` followed by a maximal nonempty run of digits. -/
def ensgSearch : List Char → Option (List Char)
  | [] => none
  | 'E' :: 'N' :: 'S' :: 'G' :: rest =>
    if (rest.takeWhile Char.isDigit) ≠ []
    then some ('E' :: 'N' :: 'S' :: 'G' :: rest.takeWhile Char.isDigit)
    else ensgSearch ('N' :: 'S' :: 'G' :: rest)
  | _ :: cs => ensgSearch cs

/-- Gene-accession normalization of majiq_parser.py: `re.search(r'ENSG\d+', raw)`,
falling back to the raw value when there is no match. -/
def majiqGene (s : String) : String :=
  match ensgSearch s.data with
  | some g => String.mk g
  | none => s

/-- Does `pat` occur at the head of `l`? (model of the prefix test used by
string replacement). -/
def listStarts : List Char → List Char → Bool
  | [], _ => true
  | _ :: _, [] => false
  | p :: ps, c :: cs => p = c && listStarts ps cs

/-- Model of Python `s.replace(pat, repl)` (all occurrences, left to right), fuel-based
so that it computes in the kernel; fuel `s.length` always suffices. -/
def replaceAux (pat repl : List Char) : ℕ → List Char → List Char
  | 0, l => l
  | fuel+1, l =>
    match l with
    | [] => []
    | c :: cs =>
      if pat ≠ [] ∧ listStarts pat l
      then repl ++ replaceAux pat repl fuel (l.drop pat.length)
      else c :: replaceAux pat repl fuel cs

/-- Model of Python `s.replace(pat, repl)`. -/
def pyReplace (s pat repl : String) : String :=
  String.mk (replaceAux pat.data repl.data s.data.length s.data)

/-- Model of the anchored coordinate pattern `re.match(r'^([^:]+):(\d+)-(\d+)$', s)`
of psisigma_parser.py, returning (chromosome part, start, end).  In the source a
failed match raises (`.group` on `None`); the raising path is modelled as `none`. -/
def parseChrCoord (s : String) : Option (String × ℕ × ℕ) :=
  match splitCharList ':' s.data with
  | [c, rest] =>
    if c = [] then none
    else
      match splitCharList '-' rest with
      | [a, b] =>
        if a ≠ [] ∧ a.all Char.isDigit ∧ b ≠ [] ∧ b.all Char.isDigit
        then some (String.mk c, digitsVal a, digitsVal b)
        else none
      | _ => none
  | _ => none

/-- Model of `map(int, s.split('-'))` unpacked into exactly two values
(majiq_parser.py); a wrong number of chunks or an unparsable chunk raises
`ValueError`, caught by the caller, modelled as `none`. -/
def mapIntPair (s : String) : Option (ℤ × ℤ) :=
  match splitCharList '-' s.data with
  | [a, b] => do
    let x ← pyIntL a
    let y ← pyIntL b
    some (x, y)
  | _ => none

/-- Python value that is either an `int` or a leftover string, produced by
`[int(x) if x.isdigit() else x for x in s.split('-') if x.strip()]` in majiq_parser.py. -/
inductive PyVal where
  | int (n : ℤ)
  | str (s : String)
deriving DecidableEq

/-- How Python renders a `PyVal` inside an f-string. -/
def pyValStr : PyVal → String
  | .int n => toString n
  | .str s => s

/-- Model of Python `s.strip()` (trim ASCII whitespace on both ends) on char lists. -/
def pyStripWs (l : List Char) : List Char :=
  ((l.dropWhile Char.isWhitespace).reverse.dropWhile Char.isWhitespace).reverse

/-- `int(x) if x.isdigit() else x` for one token. -/
def pyTok (x : List Char) : PyVal :=
  if pyIsdigit x then .int ((digitsVal x : ℤ)) else .str (String.mk x)

/-- Model of `[int(x) if x.isdigit() else x for x in s.split('-') if x.strip()]` unpacked
into exactly two values (majiq_parser.py A3SS/A5SS); a wrong number of kept chunks
raises `ValueError`, caught by the caller, modelled as `none`. -/
def majiqCoordPair (s : String) : Option (PyVal × PyVal) :=
  match (splitCharList '-' s.data).filter (fun x => pyStripWs x ≠ []) with
  | [a, b] => some (pyTok a, pyTok b)
  | _ => none

/-! ### Canonicalizer embeddings -/

/-- One row of rMATS SE output (scripts/rmats_parser.py `parse_rMATS_SE`).  Only the
fields the parser reads are modelled; the statistics and count columns of the
23-column row unpacking are not consulted by the parser and are elided. -/
structure RmatsSERow where
  GeneID : String
  geneSymbol : String
  Chr : String
  strand : String
  exonStart_0base : String
  exonEnd : String
  upstreamES : String
  upstreamEE : String
  downstreamES : String
  downstreamEE : String
deriving DecidableEq

/-- scripts/rmats_parser.py `parse_rMATS_SE` (lines 4-44): normalize the gene accession
and chromosome, parse the four flank/exon coordinates (returning `None` on
`ValueError`), and build the uniform ID
`gene;SE:chr:upstreamEE-(exonStart_0base+1):exonEnd-(downstreamES+1):strand`. -/
def parse_rMATS_SE (row : RmatsSERow) (event_type : String) : Option String :=
  let gene_id := normGeneQuoted row.GeneID
  let chr := pyStripChr row.Chr
  do
    let up_ee ← pyInt row.upstreamEE
    let exon0 ← pyInt row.exonStart_0base
    let exon_e ← pyInt row.exonEnd
    let down_es ← pyInt row.downstreamES
    some (gene_id ++ ";" ++ event_type ++ ":" ++ chr ++ ":" ++ toString up_ee ++ "-"
      ++ toString (exon0 + 1) ++ ":" ++ toString exon_e ++ "-" ++ toString (down_es + 1)
      ++ ":" ++ row.strand)

/-- One row of a MAJIQ per-event group (scripts/majiq_parser.py).  Only the columns the
SE and A3SS/A5SS parsers read are modelled. -/
structure MajiqRow where
  gene_id : String
  seqid : String
  strand : String
  junction_name : String
  junction_coord : String
  spliced_with : String
  spliced_with_coord : String
deriving DecidableEq

/-- scripts/majiq_parser.py `parse_MAJIQ_SE` (lines 5-33), for one `event_id` group:
pick the `C1_C2` row's junction coordinates and the `C1_A` row's spliced-with exon
coordinates; an absent role row (`IndexError`) or unparsable coordinate pair
(`ValueError`) is caught and yields a missing uniform ID.  The group's raw rows are
returned unchanged alongside the uniform ID assigned to them. -/
def parse_MAJIQ_SE_group (group : List MajiqRow) : List MajiqRow × Option String :=
  let uid : Option String := do
    let r0 ← group.head?
    let gene_id := majiqGene r0.gene_id
    let strand := r0.strand
    let chrom := pyReplace r0.seqid "seqid" ""
    let c1c2 ← group.find? (fun r => r.junction_name == "C1_C2")
    let jc ← mapIntPair c1c2.junction_coord
    let c1a ← group.find? (fun r => r.junction_name == "C1_A")
    let sc ← mapIntPair c1a.spliced_with_coord
    some (gene_id ++ ";SE:" ++ chrom ++ ":" ++ toString jc.1 ++ "-" ++ toString sc.1
      ++ ":" ++ toString sc.2 ++ "-" ++ toString jc.2 ++ ":" ++ strand)
  (group, uid)

/-- scripts/majiq_parser.py `parse_MAJIQ_A3SS_A5SS` (lines 36-71), for one `event_id`
group: pick the `Proximal` and `Distal` role rows and their junction coordinate
pairs; an absent role row (`IndexError`) or a coordinate pair that does not unpack
into two tokens (`ValueError`) is caught and yields a missing uniform ID
(`pd.NA`).  The group's raw rows are always retained in the output. -/
def parse_MAJIQ_A3SS_A5SS_group (event_type : String) (group : List MajiqRow) :
    List MajiqRow × Option String :=
  let uid : Option String := do
    let r0 ← group.head?
    let gene_id := majiqGene r0.gene_id
    let strand := r0.strand
    let chrom := pyReplace r0.seqid "seqid" ""
    let pRow ← group.find? (fun r => r.junction_name == "Proximal")
    let pc ← majiqCoordPair pRow.junction_coord
    let dRow ← group.find? (fun r => r.junction_name == "Distal")
    let dc ← majiqCoordPair dRow.junction_coord
    if event_type = "A3SS" then
      some (gene_id ++ ";A3:" ++ chrom ++ ":" ++ pyValStr pc.1 ++ "-" ++ pyValStr pc.2
        ++ ":" ++ pyValStr dc.1 ++ "-" ++ pyValStr dc.2 ++ ":" ++ strand)
    else if event_type = "A5SS" then
      some (gene_id ++ ";A5:" ++ chrom ++ ":" ++ pyValStr pc.1 ++ "-" ++ pyValStr pc.2
        ++ ":" ++ pyValStr dc.1 ++ "-" ++ pyValStr dc.2 ++ ":" ++ strand)
    else none
  (group, uid)

/-- One row of PSI-Sigma output (scripts/psisigma_parser.py).  Field names with spaces
(`Event Region`, `Target Exon`, `Event Type`) are written without spaces; only the
columns the SE path of `generate_ID` reads are modelled. -/
structure PsiSigmaRow where
  EventRegion : String
  GeneSymbol : String
  TargetExon : String
  EventType : String
  gene_id : String
  strand : String
deriving DecidableEq

/-- scripts/psisigma_parser.py `parse_psisigma_SE_A3SS_A5SS.generate_ID` (lines 10-67),
SE path: normalize the gene accession, match `Target Exon` and `Event Region`
against `^([^:]+):(\d+)-(\d+)$` (a failed match raises; modelled `none`), strip a
leading `chr`, and for event type `SES` widen the region by one on each side to
recover the flanking exon boundaries.  The A3SS/A5SS branches are not needed by the
claims and are elided (`none`). -/
def psisigma_generate_ID (row : PsiSigmaRow) : Option String :=
  let gene_id := normGeneQuoted row.gene_id
  do
    let te ← parseChrCoord row.TargetExon
    let chr := pyStripChr te.1
    let exon_start := te.2.1
    let exon_end := te.2.2
    let er ← parseChrCoord row.EventRegion
    if row.EventType = "SES" then
      let up_ee : ℤ := (er.2.1 : ℤ) - 1
      let down_es : ℤ := (er.2.2 : ℤ) + 1
      some (gene_id ++ ";SE:" ++ chr ++ ":" ++ toString up_ee ++ "-"
        ++ toString (exon_start : ℤ) ++ ":" ++ toString (exon_end : ℤ) ++ "-"
        ++ toString down_es ++ ":" ++ row.strand)
    else none

/-! ### Spec-side constructions for canonical-ID stability (claim C1)

These three definitions follow the spec's words, not the source: they render one
biological skipped-exon event (gene, chromosome, 1-based inclusive boundaries
`up_ee`/`exon_start`/`exon_end`/`down_es`, strand) in each tool's native raw-input
convention, and `canonicalSEId` is the §3 canonical SE identifier
`GENE;SE:CHROM:up_ee-exon_start:exon_end-down_es:STRAND`. -/

/-- Canonical SE identifier of spec §3. -/
def canonicalSEId (gene chrom strand : String) (up_ee es ee ds : ℕ) : String :=
  gene ++ ";SE:" ++ chrom ++ ":" ++ toString (up_ee : ℤ) ++ "-" ++ toString (es : ℤ)
    ++ ":" ++ toString (ee : ℤ) ++ "-" ++ toString (ds : ℤ) ++ ":" ++ strand

/-- rMATS native rendering of the event: BED-style 0-based starts
(`exonStart_0base = exon_start - 1`, `downstreamES = down_es - 1`) and 1-based ends
(`exonEnd`, `upstreamEE`). -/
def rmatsNativeSE (gene chrom strand : String) (up_ee es ee ds : ℕ) : RmatsSERow :=
  { GeneID := gene, geneSymbol := "", Chr := chrom, strand := strand,
    exonStart_0base := natRepr (es - 1), exonEnd := natRepr ee,
    upstreamES := "", upstreamEE := natRepr up_ee,
    downstreamES := natRepr (ds - 1), downstreamEE := "" }

/-- MAJIQ native rendering of the event: one row per junction, the `C1_C2` skipping
junction `up_ee-down_es` and the `C1_A` inclusion junction whose spliced-with exon
is `exon_start-exon_end`, all 1-based. -/
def majiqNativeSE (gene chrom strand : String) (up_ee es ee ds : ℕ) : List MajiqRow :=
  [ { gene_id := gene, seqid := chrom, strand := strand, junction_name := "C1_C2",
      junction_coord := natRepr up_ee ++ "-" ++ natRepr ds, spliced_with := "C2",
      spliced_with_coord := "" },
    { gene_id := gene, seqid := chrom, strand := strand, junction_name := "C1_A",
      junction_coord := natRepr up_ee ++ "-" ++ natRepr es, spliced_with := "A",
      spliced_with_coord := natRepr es ++ "-" ++ natRepr ee } ]

/-- PSI-Sigma native rendering of the event: `Event Region` is the intron span
`(up_ee+1)-(down_es-1)` and `Target Exon` is the skipped exon, event type `SES`. -/
def psisigmaNativeSE (gene chrom strand : String) (up_ee es ee ds : ℕ) : PsiSigmaRow :=
  { EventRegion := chrom ++ ":" ++ natRepr (up_ee + 1) ++ "-" ++ natRepr (ds - 1),
    GeneSymbol := "", TargetExon := chrom ++ ":" ++ natRepr es ++ "-" ++ natRepr ee,
    EventType := "SES", gene_id := gene, strand := strand }

/-! ### Classifier embeddings -/

/-- The three-way DSE class of scripts/dse_annotation.py and scripts/dse_parser.py:
`up` = `"up-regulate"`, `down` = `"down-regulate"`, `nonDse` = `"non-DSE"`. -/
inductive DseClass where
  | up
  | down
  | nonDse
deriving DecidableEq

/-- Model of Python `float(s)` and `pd.to_numeric` on an unsigned decimal literal:
`digits`, `digits.digits`, `digits.` or `.digits`.  Scientific notation is not
needed by the claims and is not modelled. -/
def parseDecCore (l : List Char) : Option ℚ :=
  match splitCharList '.' l with
  | [ip] =>
    if ip ≠ [] ∧ ip.all Char.isDigit then some ((digitsVal ip : ℚ)) else none
  | [ip, fp] =>
    if (ip ≠ [] ∨ fp ≠ []) ∧ ip.all Char.isDigit ∧ fp.all Char.isDigit
    then some ((digitsVal ip : ℚ) + (digitsVal fp : ℚ) / (10 : ℚ) ^ fp.length)
    else none
  | _ => none

/-- Model of Python `float(s)` / `pd.to_numeric(s, errors='coerce')`: optional sign
then a decimal literal; an unparsable cell becomes `NaN`, modelled as `none`. -/
def pyToNumeric (s : String) : Option ℚ :=
  match s.data with
  | '-' :: rest => (parseDecCore rest).map (fun q => -q)
  | l => parseDecCore l

/-- scripts/dse_annotation.py `annotate_dse` (lines 17-27) and scripts/dse_parser.py
`annotate_dse_class` (lines 13-21), rMATS branch, for one row whose `FDR` and
`IncLevelDifference` cells have been coerced with `pd.to_numeric(..., errors='coerce')`
(`none` = `NaN`).  `np.select` takes the first matching condition, default `non-DSE`;
a comparison against `NaN` is false, so a row with an unparsable cell falls through
to the default. -/
def annotate_dse_rmats_row (fdr Δ : Option ℚ) : DseClass :=
  match fdr, Δ with
  | some f, some d =>
    if f ≤ 1/100 ∧ d ≥ 5/100 then .up
    else if f ≤ 1/100 ∧ d ≤ -(5/100) then .down
    else .nonDse
  | _, _ => .nonDse

/-- One row of canonicalized MAJIQ voila output as consumed by the classifiers
(scripts/dse_annotation.py lines 39-80, scripts/dse_parser.py lines 33-65).  The
sources select the single `probability_changing` / `median_dpsi` column pair by
column-name pattern; the two selected cells are modelled directly as rationals
(rows whose cells are `NaN` are dropped by `dropna` before classification). -/
structure MajiqStatRow where
  uniform_ID : String
  junction_name : String
  spliced_with : String
  strand : String
  probability_changing : ℚ
  median_dpsi : ℚ
deriving DecidableEq

/-- The per-row `np.select` classification of scripts/dse_annotation.py `annotate_dse`
MAJIQ branch: `up-regulate` if `median_dpsi > 0 ∧ probability_changing > 0.95`,
`down-regulate` if `median_dpsi < 0 ∧ probability_changing > 0.95`, else `non-DSE`. -/
def majiq_row_class (r : MajiqStatRow) : DseClass :=
  if r.median_dpsi > 0 ∧ r.probability_changing > 95/100 then .up
  else if r.median_dpsi < 0 ∧ r.probability_changing > 95/100 then .down
  else .nonDse

/-- The event-type role filter of §3: `Proximal` rows for A3SS/A5SS, `Distal` rows for
AF/AL (scripts/dse_annotation.py lines 53-63, scripts/dse_parser.py lines 40-43).
Other event types are not needed by the claims. -/
def majiqRoleRows (event_type : String) (rows : List MajiqStatRow) : List MajiqStatRow :=
  if event_type = "A3SS" ∨ event_type = "A5SS" then
    rows.filter (fun r => r.junction_name == "Proximal")
  else if event_type = "AF" ∨ event_type = "AL" then
    rows.filter (fun r => r.junction_name == "Distal")
  else rows

/-- scripts/dse_annotation.py `annotate_dse` (lines 39-63), MAJIQ branch for the
single-role event types A3SS/A5SS (filter `junction_name == 'Proximal'`) and AF/AL
(filter `junction_name == 'Distal'`): reduce to the role rows, then classify each
row with `np.select` and keep `uniform_ID, class`. -/
def annotate_dse_majiq (event_type : String) (rows : List MajiqStatRow) :
    List (String × DseClass) :=
  if event_type = "A3SS" ∨ event_type = "A5SS" then
    ((rows.filter (fun r => r.junction_name == "Proximal")).map
      (fun r => (r.uniform_ID, majiq_row_class r)))
  else if event_type = "AF" ∨ event_type = "AL" then
    ((rows.filter (fun r => r.junction_name == "Distal")).map
      (fun r => (r.uniform_ID, majiq_row_class r)))
  else []

/-- `group_inclusion.loc[group_inclusion[prob_cols].max(axis=1).idxmax()]` of
scripts/dse_parser.py line 59: the first row attaining the maximal
`probability_changing` (pandas `idxmax` keeps the first occurrence of the max). -/
def maxProbRow (r0 : MajiqStatRow) (rest : List MajiqStatRow) : MajiqStatRow :=
  rest.foldl (fun best r => if r.probability_changing > best.probability_changing then r else best) r0

/-- scripts/dse_parser.py `annotate_dse_class` (lines 33-65), MAJIQ branch, for one
`uniform_ID` group: reduce to the event-type role rows; if none remain the event is
`non-DSE`; otherwise, if any selected row has `probability_changing > 0.95`, the
event is `up-regulate` when the maximal-probability row's `median_dpsi > 0` and
`down-regulate` otherwise (including `median_dpsi = 0`), else `non-DSE`. -/
def annotate_dse_class_majiq_event (event_type : String) (rows : List MajiqStatRow) :
    DseClass :=
  match majiqRoleRows event_type rows with
  | [] => .nonDse
  | r0 :: rest =>
    if (r0 :: rest).any (fun r => decide (r.probability_changing > 95/100)) then
      if (maxProbRow r0 rest).median_dpsi > 0 then .up else .down
    else .nonDse

/-! ### PSI-Sigma MX canonicalizer (claim C5) -/

/-- A parsed target-exon candidate of scripts/psisigma_parser.py `parse_psisigma_MX`:
the pandas row index and the exon start/end parsed from `Target Exon`. -/
structure PsiExon where
  idx : ℕ
  start : ℤ
  stop : ℤ
deriving DecidableEq

/-- Parse the `Target Exon` column of one event-region group (lines 99-106): split
`chrom:start-end`; any malformed entry is skipped (`except: continue`). -/
def psisigmaExonInfo : List (ℕ × String) → List PsiExon
  | [] => []
  | (i, s) :: rest =>
    match splitCharList ':' s.data with
    | [_, coord] =>
      (match splitCharList '-' coord with
       | [a, b] =>
         (match pyIntL a, pyIntL b with
          | some x, some y => ⟨i, x, y⟩ :: psisigmaExonInfo rest
          | _, _ => psisigmaExonInfo rest)
       | _ => psisigmaExonInfo rest)
    | _ => psisigmaExonInfo rest

/-- Stable insertion of an exon into a list sorted by `start`
(model of Python's stable `sorted(..., key=lambda x: x[1])`). -/
def insSorted (x : PsiExon) : List PsiExon → List PsiExon
  | [] => [x]
  | y :: ys => if x.start ≤ y.start then x :: y :: ys else y :: insSorted x ys

/-- `sorted(exon_info, key=lambda x: x[1])` (line 108). -/
def sortByStart (l : List PsiExon) : List PsiExon := l.foldr insSorted []

/-- `itertools.combinations(l, 2)`: all ordered-position pairs, in enumeration order. -/
def pairsOf : List PsiExon → List (PsiExon × PsiExon)
  | [] => []
  | x :: xs => (xs.map (fun y => (x, y))) ++ pairsOf xs

/-- The non-overlap test `e1 < s2 or e2 < s1` (line 112). -/
def nonOverlap (p : PsiExon × PsiExon) : Bool :=
  decide (p.1.stop < p.2.start) || decide (p.2.stop < p.1.start)

/-- One synthesized MX output row: the two merged raw-row indices and the uniform ID. -/
structure MXMergedRow where
  row1 : ℕ
  row2 : ℕ
  uniform_ID : String
deriving DecidableEq

/-- The merged row built for one non-overlapping pair (lines 113-130): the
earlier-starting exon is `left`, and the uniform ID is
`gene;MX:chrom:(rs-1)-s1:e1-(re+1):(rs-1)-s2:e2-(re+1):strand` with each exon
rendered as `start:end`. -/
def mkMXRow (gene chrom strand : String) (rs re : ℤ) (p : PsiExon × PsiExon) :
    MXMergedRow :=
  let left := if p.1.start < p.2.start then p.1 else p.2
  let right := if p.1.start < p.2.start then p.2 else p.1
  { row1 := p.1.idx, row2 := p.2.idx,
    uniform_ID := gene ++ ";MX:" ++ chrom ++ ":" ++ toString (rs - 1) ++ "-"
      ++ toString left.start ++ ":" ++ toString left.stop ++ "-" ++ toString (re + 1)
      ++ ":" ++ toString (rs - 1) ++ "-" ++ toString right.start ++ ":"
      ++ toString right.stop ++ "-" ++ toString (re + 1) ++ ":" ++ strand }

/-- The pair loop of lines 111-130: for every combination pair, if it is
non-overlapping, append one merged row. -/
def mxEmitPairs (gene chrom strand : String) (rs re : ℤ) :
    List (PsiExon × PsiExon) → List MXMergedRow
  | [] => []
  | p :: ps =>
    if nonOverlap p
    then mkMXRow gene chrom strand rs re p :: mxEmitPairs gene chrom strand rs re ps
    else mxEmitPairs gene chrom strand rs re ps

/-- scripts/psisigma_parser.py `parse_psisigma_MX` (lines 93-132), for one
`Event Region` group (the caller has already restricted to `Event Type == "MXS"`
and to regions occurring more than once): parse and sort the candidate target
exons, then emit one merged synthesized row per non-overlapping combination pair. -/
def parse_psisigma_MX_group (gene chrom strand : String) (rs re : ℤ)
    (targetExons : List (ℕ × String)) : List MXMergedRow :=
  mxEmitPairs gene chrom strand rs re (pairsOf (sortByStart (psisigmaExonInfo targetExons)))

/-! ### ASE extractor embeddings (scripts/dse_parser.py `ase_extract`) -/

/-- Model of Python `float(s)`: optional sign then a decimal literal. -/
def pyFloat (l : List Char) : Option ℚ :=
  match l with
  | '-' :: rest => (parseDecCore rest).map (fun q => -q)
  | _ => parseDecCore l

/-- `np.mean` of a list of parsed values; the mean of an empty list is `NaN` (`none`). -/
def meanQ (l : List ℚ) : Option ℚ :=
  if l = [] then none else some (l.sum / (l.length : ℚ))

/-- `np.mean([float(i) for i in str(x).split(',') if i != 'NA'])` (lines 96-97): any
token that fails `float` raises, modelled as `none` for the whole cell. -/
def meanCommaPsi (s : String) : Option ℚ := do
  let vals ← ((splitCharList ',' s.data).filter (fun t => t ≠ "NA".data)).mapM pyFloat
  meanQ vals

/-- `np.mean([float(i) for i in str(x).split('|') if i.lower() != 'na'])` (lines 137-138). -/
def meanPipePsi (s : String) : Option ℚ := do
  let vals ← ((splitCharList '|' s.data).filter
    (fun t => t.map Char.toLower ≠ "na".data)).mapM pyFloat
  meanQ vals

/-- One row of canonicalized rMATS output as consumed by `ase_extract` (only the
columns the rMATS branch reads for the test group). -/
structure RmatsPsiRow where
  uniform_ID : String
  IncLevel1 : String
deriving DecidableEq

/-- scripts/dse_parser.py `ase_extract` rMATS branch (lines 95-99), test group:
the `uniform_ID`s of rows whose mean `IncLevel1` inclusion lies in `[0.05, 0.95]`
(a `NaN` mean fails both comparisons). -/
def rmats_test_ase_ids (rows : List RmatsPsiRow) : List String :=
  (rows.filter (fun r =>
    match meanCommaPsi r.IncLevel1 with
    | some m => decide (5/100 ≤ m ∧ m ≤ 95/100)
    | none => false)).map (fun r => r.uniform_ID)

/-- One row of canonicalized PSI-Sigma output as consumed by `ase_extract`
(`T Values` written `TValues`). -/
structure PsiSigmaPsiRow where
  uniform_ID : String
  TValues : String
deriving DecidableEq

/-- scripts/dse_parser.py `ase_extract` PSI-Sigma branch (lines 136-144), test group:
group by `uniform_ID` and keep the IDs for which some row's mean `T Values`
inclusion lies in `[5, 95]` (pandas `between` is inclusive on both ends). -/
def psisigma_test_ase_ids (rows : List PsiSigmaPsiRow) : List String :=
  ((rows.map (fun r => r.uniform_ID)).dedup).filter (fun uid =>
    rows.any (fun r => r.uniform_ID == uid &&
      (match meanPipePsi r.TValues with
       | some m => decide ((5 : ℚ) ≤ m ∧ m ≤ 95)
       | none => false)))

/-! ### Integrator embedding (scripts/integration_dse.py `integration_analysis`) -/

/-- A collapsed class value: `dse_df['class'].replace(['up-regulate','down-regulate'],
'DSE')` leaves only `DSE` and `non-DSE` in each per-tool column. -/
inductive CCls where
  | dse
  | nonDse
deriving DecidableEq

/-- The collapse `up-regulate / down-regulate ↦ DSE` (line 43). -/
def collapseClass : DseClass → CCls
  | .up => .dse
  | .down => .dse
  | .nonDse => .nonDse

/-- Collapse an entire per-tool classification table. -/
def collapseTable (t : List (String × DseClass)) : List (String × CCls) :=
  t.map (fun p => (p.1, collapseClass p.2))

/-- Look up the class recorded for `uniform_ID = k` in one per-tool table. -/
def lookupCls (t : List (String × CCls)) (k : String) : Option CCls :=
  (t.find? (fun p => p.1 == k)).map (fun p => p.2)

/-- One step of `reduce(lambda l, r: pd.merge(l, r, on='uniform_ID', how='outer'), dfs)`
(line 47), specialised to per-tool tables whose `uniform_ID`s are unique: every
accumulated row gains the new tool's class (missing if absent), and keys only in
the new table are appended with missing (`NaN`) entries for the `done` earlier
tools. -/
def mergeOuter (done : ℕ) (acc : List (String × List (Option CCls)))
    (t : List (String × CCls)) : List (String × List (Option CCls)) :=
  (acc.map (fun p => (p.1, p.2 ++ [lookupCls t p.1])))
    ++ ((t.filter (fun q => ¬ acc.any (fun p => p.1 == q.1))).map
      (fun q => (q.1, List.replicate done none ++ [some q.2])))

/-- Fold of `mergeOuter` over the per-tool tables, tracking how many tables have been
merged so far. -/
def joinAux : ℕ → List (String × List (Option CCls)) → List (List (String × CCls)) →
    List (String × List (Option CCls))
  | _, acc, [] => acc
  | d, acc, t :: ts => joinAux (d + 1) (mergeOuter d acc t) ts

/-- The full outer join on `uniform_ID` of all per-tool tables: each joined row is a
`uniform_ID` together with one `Option` class per tool, in tool order. -/
def joinTables (ts : List (List (String × CCls))) : List (String × List (Option CCls)) :=
  joinAux 0 [] ts

/-- `df_combined[dse_cols].isin(["DSE"]).sum(axis=1)` (line 49): the number of tool
columns equal to `DSE`; a missing (`NaN`) column is not `DSE` and contributes 0. -/
def supportCount (cols : List (Option CCls)) : ℕ :=
  cols.countP (fun c => decide (c = some CCls.dse))

/-- `['DSE' if x > n else 'non-DSE' for x in df_combined['sum']]` (line 53): the
consensus class at loop index `n` (support threshold `n + 1`). -/
def consensusClass (n : ℕ) (cols : List (Option CCls)) : CCls :=
  if supportCount cols > n then .dse else .nonDse

/-- One serialized row of `integration_{n+1}of{n}.txt` (line 58): `uniform_ID`, the
per-tool class columns, the `sum` column, and the consensus `class` column (the
source's `class` is spelled `cls` here since `class` is a Lean keyword). -/
structure OutRow where
  uniform_ID : String
  toolCols : List (Option CCls)
  sum : ℕ
  cls : CCls
deriving DecidableEq

/-- The serialized integration table at loop index `n` (support threshold `n + 1`). -/
def integrationOutput (ts : List (List (String × CCls))) (n : ℕ) : List OutRow :=
  (joinTables ts).map (fun p => ⟨p.1, p.2, supportCount p.2, consensusClass n p.2⟩)

/-! ### Helper lemmas about the primitive models -/

theorem digitVal_dChar {d : ℕ} (h : d < 10) : digitVal (dChar d) = d := by
  interval_cases d <;> rfl

theorem isDigit_dChar {d : ℕ} (h : d < 10) : (dChar d).isDigit = true := by
  interval_cases d <;> rfl

theorem digitsVal_append_one (l : List Char) (c : Char) :
    digitsVal (l ++ [c]) = 10 * digitsVal l + digitVal c := by
  simp [digitsVal, List.foldl_append]

theorem natCharsAux_spec : ∀ fuel n, n ≤ fuel →
    digitsVal (natCharsAux fuel n) = n ∧ (natCharsAux fuel n).all Char.isDigit = true := by
  intro fuel
  induction fuel with
  | zero =>
    intro n hn
    have hz : n = 0 := Nat.le_zero.1 hn
    subst hz
    exact ⟨rfl, rfl⟩
  | succ f ih =>
    intro n hn
    by_cases h : n < 10
    · simp only [natCharsAux, if_pos h]
      constructor
      · show 10 * 0 + digitVal (dChar n) = n
        rw [digitVal_dChar h]; ring
      · simp [isDigit_dChar h]
    · have hdiv : n / 10 ≤ f := by
        have := Nat.div_lt_self (by omega : 0 < n) (by norm_num : 1 < 10)
        omega
      obtain ⟨ihv, ihd⟩ := ih (n / 10) hdiv
      simp only [natCharsAux, if_neg h]
      constructor
      · rw [digitsVal_append_one, ihv, digitVal_dChar (Nat.mod_lt _ (by norm_num))]
        omega
      · simp only [List.all_append, ihd, Bool.true_and]
        simp [isDigit_dChar (Nat.mod_lt _ (by norm_num) : n % 10 < 10)]

theorem digitsVal_natChars (n : ℕ) : digitsVal (natChars n) = n :=
  (natCharsAux_spec n n le_rfl).1

theorem natChars_all_digit (n : ℕ) : (natChars n).all Char.isDigit = true :=
  (natCharsAux_spec n n le_rfl).2

theorem natCharsAux_ne_nil : ∀ fuel n, natCharsAux fuel n ≠ [] := by
  intro fuel n
  cases fuel with
  | zero => simp [natCharsAux]
  | succ f =>
    simp only [natCharsAux]
    split <;> simp

theorem natChars_ne_nil (n : ℕ) : natChars n ≠ [] := natCharsAux_ne_nil n n

theorem natRepr_data (n : ℕ) : (natRepr n).data = natChars n := rfl

theorem splitCharList_not_mem {sep : Char} {l : List Char} (h : sep ∉ l) :
    splitCharList sep l = [l] := by
  induction l with
  | nil => rfl
  | cons c cs ih =>
    have hc : c ≠ sep := fun e => h (e ▸ List.mem_cons_self c cs)
    have hcs : sep ∉ cs := fun m => h (List.mem_cons_of_mem _ m)
    simp only [splitCharList, if_neg hc, ih hcs, List.headD_cons, List.tail_cons]

theorem splitCharList_append {sep : Char} {l1 l2 : List Char} (h : sep ∉ l1) :
    splitCharList sep (l1 ++ sep :: l2) = l1 :: splitCharList sep l2 := by
  induction l1 with
  | nil => simp [splitCharList]
  | cons c cs ih =>
    have hc : c ≠ sep := fun e => h (e ▸ List.mem_cons_self c cs)
    have hcs : sep ∉ cs := fun m => h (List.mem_cons_of_mem _ m)
    simp only [List.cons_append, splitCharList, if_neg hc, List.append_eq]
    rw [ih hcs]
    simp only [List.headD_cons, List.tail_cons]

theorem not_mem_of_all_digit {sep : Char} (hsep : sep.isDigit = false) {l : List Char}
    (h : l.all Char.isDigit = true) : sep ∉ l := by
  intro hm
  have h2 := List.all_eq_true.1 h sep hm
  rw [hsep] at h2
  exact absurd h2 (by decide)

theorem pyIntL_all_digit {l : List Char} (hne : l ≠ []) (hd : l.all Char.isDigit = true) :
    pyIntL l = some ((digitsVal l : ℤ)) := by
  cases l with
  | nil => exact absurd rfl hne
  | cons c cs =>
    have hc : c.isDigit = true := List.all_eq_true.1 hd c (by simp)
    have hcd : c ≠ '-' := by
      intro he; rw [he] at hc; exact absurd hc (by decide)
    simp only [pyIntL]
    rw [if_neg hcd, if_pos hd]

theorem pyInt_natRepr (n : ℕ) : pyInt (natRepr n) = some ((n : ℤ)) := by
  show pyIntL (natRepr n).data = some ((n : ℤ))
  rw [natRepr_data, pyIntL_all_digit (natChars_ne_nil n) (natChars_all_digit n),
    digitsVal_natChars]

theorem dash_not_mem_natChars (n : ℕ) : '-' ∉ natChars n :=
  not_mem_of_all_digit (by decide) (natChars_all_digit n)

theorem colon_not_mem_natChars (n : ℕ) : ':' ∉ natChars n :=
  not_mem_of_all_digit (by decide) (natChars_all_digit n)

theorem mapIntPair_natRepr (a b : ℕ) :
    mapIntPair (natRepr a ++ "-" ++ natRepr b) = some (((a : ℤ)), ((b : ℤ))) := by
  have hdata : (natRepr a ++ "-" ++ natRepr b).data = natChars a ++ '-' :: natChars b := by
    simp [String.data_append, natRepr_data]
  unfold mapIntPair
  rw [hdata, splitCharList_append (dash_not_mem_natChars a),
    splitCharList_not_mem (dash_not_mem_natChars b)]
  simp [pyIntL_all_digit (natChars_ne_nil a) (natChars_all_digit a),
    pyIntL_all_digit (natChars_ne_nil b) (natChars_all_digit b),
    digitsVal_natChars]

theorem parseChrCoord_build {chrom : String} (hcolon : ':' ∉ chrom.data)
    (hne : chrom ≠ "") (a b : ℕ) :
    parseChrCoord (chrom ++ ":" ++ natRepr a ++ "-" ++ natRepr b)
      = some (chrom, a, b) := by
  have hdata : (chrom ++ ":" ++ natRepr a ++ "-" ++ natRepr b).data
      = chrom.data ++ ':' :: (natChars a ++ '-' :: natChars b) := by
    simp [String.data_append, natRepr_data]
  have hinner : ':' ∉ natChars a ++ '-' :: natChars b := by
    intro hm
    rcases List.mem_append.1 hm with h1 | h2
    · exact colon_not_mem_natChars a h1
    · rcases List.mem_cons.1 h2 with h3 | h4
      · exact absurd h3 (by decide)
      · exact colon_not_mem_natChars b h4
  have hdne : chrom.data ≠ [] := by
    intro he
    apply hne
    cases chrom with
    | mk l =>
      have hl : l = [] := he
      subst hl
      rfl
  unfold parseChrCoord
  rw [hdata, splitCharList_append hcolon, splitCharList_not_mem hinner]
  simp only [if_neg hdne]
  rw [splitCharList_append (dash_not_mem_natChars a),
    splitCharList_not_mem (dash_not_mem_natChars b)]
  simp [natChars_ne_nil, natChars_all_digit, digitsVal_natChars]

theorem pyStripChr_eq_self {s : String} (h : lowerStartsWithChr s.data = false) :
    pyStripChr s = s := by
  unfold pyStripChr
  rw [h]
  rfl

theorem digit_ne_quote {c : Char} (h : c.isDigit = true) : c ≠ '"' := by
  intro he
  rw [he] at h
  exact absurd h (by decide)

theorem pyStripQuotes_eq_self {s : String}
    (h1 : ∀ c, s.data.head? = some c → c ≠ '"')
    (h2 : ∀ c, s.data.getLast? = some c → c ≠ '"') : pyStripQuotes s = s := by
  have hd1 : s.data.dropWhile (· = '"') = s.data := by
    cases hd : s.data with
    | nil => rfl
    | cons c cs =>
      have hc : c ≠ '"' := h1 c (by rw [hd]; rfl)
      simp [List.dropWhile_cons, hc]
  have hd2 : s.data.reverse.dropWhile (· = '"') = s.data.reverse := by
    cases hr : s.data.reverse with
    | nil => rfl
    | cons c cs =>
      have hcl : s.data.getLast? = some c := by
        rw [← List.head?_reverse, hr]
        rfl
      have hc : c ≠ '"' := h2 c hcl
      simp [List.dropWhile_cons, hc]
  show String.mk _ = s
  rw [hd1, hd2, List.reverse_reverse]

theorem matchQuotedENSG_ne_quote {l : List Char}
    (h : ∀ c rest, l = c :: rest → c ≠ '"') : matchQuotedENSG l = none := by
  cases l with
  | nil => rfl
  | cons c rest =>
    have hc := h c rest rfl
    simp [matchQuotedENSG, hc]

theorem normGeneQuoted_eq_self {s : String}
    (h1 : ∀ c, s.data.head? = some c → c ≠ '"')
    (h2 : ∀ c, s.data.getLast? = some c → c ≠ '"') : normGeneQuoted s = s := by
  have hm : matchQuotedENSG s.data = none := by
    apply matchQuotedENSG_ne_quote
    intro c rest he
    exact h1 c (by rw [he]; rfl)
  unfold normGeneQuoted
  rw [hm]
  exact pyStripQuotes_eq_self h1 h2

theorem ensg_gene_head {ds : List Char} {gene : String}
    (hg : gene.data = 'E' :: 'N' :: 'S' :: 'G' :: ds) :
    ∀ c, gene.data.head? = some c → c ≠ '"' := by
  intro c hc
  rw [hg] at hc
  have he : c = 'E' := by
    simpa using hc.symm
  subst he
  decide

theorem ensg_gene_last {ds : List Char} {gene : String}
    (hg : gene.data = 'E' :: 'N' :: 'S' :: 'G' :: ds) (hne : ds ≠ [])
    (hdig : ds.all Char.isDigit = true) :
    ∀ c, gene.data.getLast? = some c → c ≠ '"' := by
  intro c hc
  rw [hg] at hc
  have h4 : ('E' :: 'N' :: 'S' :: 'G' :: ds).getLast? = ds.getLast? := by
    show (['E', 'N', 'S', 'G'] ++ ds).getLast? = ds.getLast?
    exact List.getLast?_append_of_ne_nil _ hne
  rw [h4] at hc
  have hmem : c ∈ ds := by
    obtain ⟨h5, h6⟩ := List.mem_getLast?_eq_getLast (Option.mem_def.mpr hc)
    exact h6 ▸ List.getLast_mem h5
  exact digit_ne_quote (List.all_eq_true.1 hdig c hmem)

theorem normGeneQuoted_ensg {ds : List Char} {gene : String}
    (hg : gene.data = 'E' :: 'N' :: 'S' :: 'G' :: ds) (hne : ds ≠ [])
    (hdig : ds.all Char.isDigit = true) : normGeneQuoted gene = gene :=
  normGeneQuoted_eq_self (ensg_gene_head hg) (ensg_gene_last hg hne hdig)

theorem majiqGene_ensg {ds : List Char} {gene : String}
    (hg : gene.data = 'E' :: 'N' :: 'S' :: 'G' :: ds) (hne : ds ≠ [])
    (hdig : ds.all Char.isDigit = true) : majiqGene gene = gene := by
  have htw : ds.takeWhile Char.isDigit = ds :=
    List.takeWhile_eq_self_iff.mpr (by simpa [List.all_eq_true] using hdig)
  have hs : ensgSearch gene.data = some ('E' :: 'N' :: 'S' :: 'G' :: ds) := by
    rw [hg]
    simp only [ensgSearch, htw]
    rw [if_pos hne]
  unfold majiqGene
  rw [hs, ← hg]

/-! ### Claim C1: cross-tool canonical-ID stability for SE -/

/-- C1: for every biological skipped-exon event (an `ENSG` gene accession, a chromosome
name that is not `chr`-prefixed, does not contain `seqid` and has no colon, a strand,
and 1-based boundaries `up_ee`, `exon_start`, `exon_end`, `down_es`), the rMATS, MAJIQ
and PSI-Sigma Canonicalizers, each fed the event rendered in its native raw-input
convention, emit the byte-identical uniform ID
`gene;SE:chrom:up_ee-exon_start:exon_end-down_es:strand`. -/
theorem canonical_id_SE_stability
    (ds : List Char) (gene chrom strand : String) (n_up n_es n_ee n_ds : ℕ)
    (hds : ds ≠ []) (hdig : ds.all Char.isDigit = true)
    (hgene : gene.data = 'E' :: 'N' :: 'S' :: 'G' :: ds)
    (hchr : lowerStartsWithChr chrom.data = false)
    (hseq : pyReplace chrom "seqid" "" = chrom)
    (hcolon : ':' ∉ chrom.data) (hchrne : chrom ≠ "")
    (hes : 1 ≤ n_es) (hnds : 1 ≤ n_ds) :
    parse_rMATS_SE (rmatsNativeSE gene chrom strand n_up n_es n_ee n_ds) "SE"
        = some (canonicalSEId gene chrom strand n_up n_es n_ee n_ds)
      ∧ (parse_MAJIQ_SE_group (majiqNativeSE gene chrom strand n_up n_es n_ee n_ds)).2
        = some (canonicalSEId gene chrom strand n_up n_es n_ee n_ds)
      ∧ psisigma_generate_ID (psisigmaNativeSE gene chrom strand n_up n_es n_ee n_ds)
        = some (canonicalSEId gene chrom strand n_up n_es n_ee n_ds) := by
  have e1 : ((n_es - 1 : ℕ) : ℤ) + 1 = ((n_es : ℕ) : ℤ) := by omega
  have e2 : ((n_ds - 1 : ℕ) : ℤ) + 1 = ((n_ds : ℕ) : ℤ) := by omega
  have e3 : ((n_up + 1 : ℕ) : ℤ) - 1 = ((n_up : ℕ) : ℤ) := by omega
  have hgn := normGeneQuoted_ensg hgene hds hdig
  have hmg := majiqGene_ensg hgene hds hdig
  have hcn := pyStripChr_eq_self hchr
  refine ⟨?_, ?_, ?_⟩
  · simp only [parse_rMATS_SE, rmatsNativeSE, hgn, hcn, pyInt_natRepr,
      Option.bind_eq_bind, Option.some_bind]
    rw [e1, e2]
    simp only [canonicalSEId]
    refine congrArg some (String.ext ?_)
    simp [String.data_append]
  · simp [parse_MAJIQ_SE_group, majiqNativeSE, List.find?, hmg, hseq, mapIntPair_natRepr,
      canonicalSEId]
  · simp only [psisigma_generate_ID, psisigmaNativeSE, hgn, hcn,
      parseChrCoord_build hcolon hchrne, Option.bind_eq_bind, Option.some_bind]
    rw [e3, e2]
    simp only [canonicalSEId]
    refine congrArg some (String.ext ?_)
    simp [String.data_append]

/-- Witness for C1 at spec §8's coordinate example: gene `ENSG00000001`, chromosome `1`,
strand `+`, boundaries 100/150/200/250, whose canonical ID is
`ENSG00000001;SE:1:100-150:200-250:+`. -/
theorem canonical_id_SE_stability_witness :
    (parse_rMATS_SE (rmatsNativeSE "ENSG00000001" "1" "+" 100 150 200 250) "SE"
        = some (canonicalSEId "ENSG00000001" "1" "+" 100 150 200 250)
      ∧ (parse_MAJIQ_SE_group (majiqNativeSE "ENSG00000001" "1" "+" 100 150 200 250)).2
        = some (canonicalSEId "ENSG00000001" "1" "+" 100 150 200 250)
      ∧ psisigma_generate_ID (psisigmaNativeSE "ENSG00000001" "1" "+" 100 150 200 250)
        = some (canonicalSEId "ENSG00000001" "1" "+" 100 150 200 250))
      ∧ canonicalSEId "ENSG00000001" "1" "+" 100 150 200 250
        = "ENSG00000001;SE:1:100-150:200-250:+" :=
  ⟨canonical_id_SE_stability "00000001".data "ENSG00000001" "1" "+" 100 150 200 250
      (by decide) (by decide) (by decide) (by decide) (by decide) (by decide) (by decide)
      (by decide) (by decide),
    by decide⟩

/-! ### Claim C6: T1 (rMATS) classification rule with boundary -/

theorem annotate_dse_rmats_row_some (f d : ℚ) :
    annotate_dse_rmats_row (some f) (some d)
      = if f ≤ 1/100 ∧ d ≥ 5/100 then DseClass.up
        else if f ≤ 1/100 ∧ d ≤ -(5/100) then DseClass.down else DseClass.nonDse := rfl

theorem rmats_class_up_iff (f d : ℚ) :
    annotate_dse_rmats_row (some f) (some d) = DseClass.up ↔ f ≤ 1/100 ∧ d ≥ 5/100 := by
  rw [annotate_dse_rmats_row_some]
  split_ifs with h1 h2
  · exact ⟨fun _ => h1, fun _ => rfl⟩
  · exact ⟨fun he => absurd he (by decide), fun hc => absurd hc h1⟩
  · exact ⟨fun he => absurd he (by decide), fun hc => absurd hc h1⟩

theorem rmats_class_down_iff (f d : ℚ) :
    annotate_dse_rmats_row (some f) (some d) = DseClass.down ↔ f ≤ 1/100 ∧ d ≤ -(5/100) := by
  rw [annotate_dse_rmats_row_some]
  split_ifs with h1 h2
  · refine ⟨fun he => absurd he (by decide), fun hc => ?_⟩
    exfalso
    have ha := h1.2
    have hb := hc.2
    linarith
  · exact ⟨fun _ => h2, fun _ => rfl⟩
  · exact ⟨fun he => absurd he (by decide), fun hc => absurd hc h2⟩

theorem rmats_class_nonDse_iff (f d : ℚ) :
    annotate_dse_rmats_row (some f) (some d) = DseClass.nonDse ↔
      ¬(f ≤ 1/100 ∧ d ≥ 5/100) ∧ ¬(f ≤ 1/100 ∧ d ≤ -(5/100)) := by
  rw [annotate_dse_rmats_row_some]
  split_ifs with h1 h2
  · exact ⟨fun he => absurd he (by decide), fun hc => absurd h1 hc.1⟩
  · exact ⟨fun he => absurd he (by decide), fun hc => absurd h2 hc.2⟩
  · exact ⟨fun _ => ⟨h1, h2⟩, fun _ => rfl⟩

/-- C6: for every row with numeric FDR and IncLevelDifference, the rMATS class is
`up-regulate` iff `FDR ≤ 0.01 ∧ Δ ≥ 0.05`, `down-regulate` iff
`FDR ≤ 0.01 ∧ Δ ≤ -0.05`, and `non-DSE` otherwise; in particular FDR = 0.01 with
Δ = 0.05 yields `up-regulate` and FDR = 0.011 (with the same Δ) yields `non-DSE`. -/
theorem rmats_classification_boundary :
    (∀ f d : ℚ,
        (annotate_dse_rmats_row (some f) (some d) = DseClass.up ↔ f ≤ 1/100 ∧ d ≥ 5/100)
      ∧ (annotate_dse_rmats_row (some f) (some d) = DseClass.down ↔
          f ≤ 1/100 ∧ d ≤ -(5/100))
      ∧ (annotate_dse_rmats_row (some f) (some d) = DseClass.nonDse ↔
          ¬(f ≤ 1/100 ∧ d ≥ 5/100) ∧ ¬(f ≤ 1/100 ∧ d ≤ -(5/100))))
    ∧ annotate_dse_rmats_row (some (1/100)) (some (5/100)) = DseClass.up
    ∧ annotate_dse_rmats_row (some (11/1000)) (some (5/100)) = DseClass.nonDse := by
  refine ⟨fun f d =>
    ⟨rmats_class_up_iff f d, rmats_class_down_iff f d, rmats_class_nonDse_iff f d⟩, ?_, ?_⟩
  · rw [annotate_dse_rmats_row_some, if_pos (by norm_num)]
  · rw [annotate_dse_rmats_row_some, if_neg (by norm_num), if_neg (by norm_num)]

/-! ### Claim C4: T4 (MAJIQ) classification rule -/

theorem majiq_row_class_up_iff (r : MajiqStatRow) :
    majiq_row_class r = DseClass.up ↔
      r.probability_changing > 95/100 ∧ r.median_dpsi > 0 := by
  unfold majiq_row_class
  split_ifs with h1 h2
  · exact ⟨fun _ => ⟨h1.2, h1.1⟩, fun _ => rfl⟩
  · exact ⟨fun he => absurd he (by decide), fun hc => absurd ⟨hc.2, hc.1⟩ h1⟩
  · exact ⟨fun he => absurd he (by decide), fun hc => absurd ⟨hc.2, hc.1⟩ h1⟩

theorem majiq_row_class_down_iff (r : MajiqStatRow) :
    majiq_row_class r = DseClass.down ↔
      r.probability_changing > 95/100 ∧ r.median_dpsi < 0 := by
  unfold majiq_row_class
  split_ifs with h1 h2
  · refine ⟨fun he => absurd he (by decide), fun hc => ?_⟩
    exfalso
    have ha := h1.1
    have hb := hc.2
    linarith
  · exact ⟨fun _ => ⟨h2.2, h2.1⟩, fun _ => rfl⟩
  · exact ⟨fun he => absurd he (by decide), fun hc => absurd ⟨hc.2, hc.1⟩ h2⟩

theorem majiq_row_class_zero_dpsi (r : MajiqStatRow) (h : r.median_dpsi = 0) :
    majiq_row_class r = DseClass.nonDse := by
  unfold majiq_row_class
  rw [if_neg (fun hc => absurd hc.1 (by rw [h]; exact lt_irrefl 0)),
    if_neg (fun hc => absurd hc.1 (by rw [h]; exact lt_irrefl 0))]

/-- C4 (counterexample): an A3SS event with a single `Proximal` row having
`probability_changing = 0.96 > 0.95` and `median_dpsi = 0` is classified
`down-regulate` (not `non-DSE`) by `annotate_dse_class` of scripts/dse_parser.py. -/
theorem majiq_zero_dpsi_counterexample :
    annotate_dse_class_majiq_event "A3SS"
        [{ uniform_ID := "e1", junction_name := "Proximal", spliced_with := "",
           strand := "+", probability_changing := 96/100, median_dpsi := 0 }]
      = DseClass.down
    ∧ DseClass.down ≠ DseClass.nonDse := by
  constructor
  · have hrole : majiqRoleRows "A3SS"
        [{ uniform_ID := "e1", junction_name := "Proximal", spliced_with := "",
           strand := "+", probability_changing := 96/100, median_dpsi := 0 }]
        = [{ uniform_ID := "e1", junction_name := "Proximal", spliced_with := "",
             strand := "+", probability_changing := 96/100, median_dpsi := 0 }] := by
      unfold majiqRoleRows
      rw [if_pos (Or.inl rfl)]
      rfl
    unfold annotate_dse_class_majiq_event
    rw [hrole]
    simp only [List.any_cons, List.any_nil, Bool.or_false, maxProbRow, List.foldl_nil,
      decide_eq_true_eq]
    rw [if_pos (by norm_num), if_neg (by norm_num)]
  · decide

/-- C4 (amended): for the single-role event types (A3SS/A5SS select `Proximal`
rows, AF/AL select `Distal` rows), `annotate_dse` of scripts/dse_annotation.py
first reduces the rows to the role filter and then classifies each selected row
`up-regulate` iff `probability_changing > 0.95 ∧ median_dpsi > 0`, `down-regulate`
iff `probability_changing > 0.95 ∧ median_dpsi < 0`, and `non-DSE` otherwise —
in particular `non-DSE` whenever `median_dpsi = 0`, and no non-selected row is
consulted.  (`annotate_dse_class` of scripts/dse_parser.py instead classifies the
event `down-regulate` whenever some selected row passes the probability test and
the maximal-probability row's `median_dpsi ≤ 0`; see the counterexample.) -/
theorem majiq_classification_amended :
    (∀ et : String, (et = "A3SS" ∨ et = "A5SS" ∨ et = "AF" ∨ et = "AL") →
      ∀ rows : List MajiqStatRow,
        annotate_dse_majiq et rows
          = (majiqRoleRows et rows).map (fun r => (r.uniform_ID, majiq_row_class r)))
    ∧ (∀ r : MajiqStatRow,
        (majiq_row_class r = DseClass.up ↔
          r.probability_changing > 95/100 ∧ r.median_dpsi > 0)
      ∧ (majiq_row_class r = DseClass.down ↔
          r.probability_changing > 95/100 ∧ r.median_dpsi < 0)
      ∧ (r.median_dpsi = 0 → majiq_row_class r = DseClass.nonDse)) := by
  constructor
  · intro et h rows
    unfold annotate_dse_majiq majiqRoleRows
    rcases h with h | h | h | h <;> subst h
    · rw [if_pos (Or.inl rfl), if_pos (Or.inl rfl)]
    · rw [if_pos (Or.inr rfl), if_pos (Or.inr rfl)]
    · rw [if_neg (by decide), if_pos (Or.inl rfl), if_neg (by decide), if_pos (Or.inl rfl)]
    · rw [if_neg (by decide), if_pos (Or.inr rfl), if_neg (by decide), if_pos (Or.inr rfl)]
  · intro r
    exact ⟨majiq_row_class_up_iff r, majiq_row_class_down_iff r, majiq_row_class_zero_dpsi r⟩

/-! ### Claim C8: parse-failure recovery -/

/-- C8 (counterexample): an rMATS row whose `FDR` cell is the unparsable string
`n/a` is coerced to missing and then classified `non-DSE` by the rMATS classifier
branch — the parse failure is silently converted into the successful default
classification. -/
theorem parse_failure_default_class_counterexample :
    pyToNumeric "n/a" = none
    ∧ annotate_dse_rmats_row (pyToNumeric "n/a") (pyToNumeric "0.5") = DseClass.nonDse := by
  constructor
  · decide
  · rw [show pyToNumeric "n/a" = none from by decide]
    cases h : pyToNumeric "0.5" <;> rfl

/-- C8 (amended): in the Canonicalizer a coordinate parse failure is recovered
locally — the per-row `apply` maps each record independently, and a record whose
`upstreamEE` fails integer parsing gets uniform ID `None` while every other
record's result is unchanged; in the Classifier, however, a numeric cell that
fails `pd.to_numeric` coercion becomes missing and the row falls through to the
default class `non-DSE` (the failure is converted into the default
classification rather than propagated). -/
theorem parse_failure_recovery_amended :
    (∀ (rows : List RmatsSERow) (i : ℕ),
        (rows.map (fun r => parse_rMATS_SE r "SE")).get? i
          = (rows.get? i).map (fun r => parse_rMATS_SE r "SE"))
    ∧ (∀ r : RmatsSERow, pyInt r.upstreamEE = none → parse_rMATS_SE r "SE" = none)
    ∧ (∀ fdr Δ : String, pyToNumeric fdr = none →
        annotate_dse_rmats_row (pyToNumeric fdr) (pyToNumeric Δ) = DseClass.nonDse) := by
  refine ⟨?_, ?_, ?_⟩
  · intro rows i
    exact List.get?_map _ rows i
  · intro r h
    unfold parse_rMATS_SE
    rw [h]
    rfl
  · intro fdr Δ h
    rw [h]
    cases hd : pyToNumeric Δ <;> rfl

/-! ### Claim C7: missing-role handling in the Canonicalizer -/

/-- C7: for every grouped MAJIQ A3SS/A5SS event in which no row carries the
required `Proximal` role, `parse_MAJIQ_A3SS_A5SS` assigns the group a missing
uniform ID (`pd.NA`, modelled `none`), retains all of the group's raw rows
unchanged in its output, and raises no exception (the `IndexError` from the
empty role selection is caught; the embedding is total). -/
theorem majiq_missing_role (event_type : String) (group : List MajiqRow)
    (h : ∀ r ∈ group, r.junction_name ≠ "Proximal") :
    parse_MAJIQ_A3SS_A5SS_group event_type group = (group, none) := by
  cases group with
  | nil => rfl
  | cons g gs =>
    have hf : (g :: gs).find? (fun r => r.junction_name == "Proximal") = none :=
      List.find?_eq_none.2 (fun r hr => by simpa using h r hr)
    unfold parse_MAJIQ_A3SS_A5SS_group
    simp [hf]

/-- Witness for C7: a one-row A3SS group containing only a `Distal` row keeps its
raw row and gets a missing uniform ID. -/
theorem majiq_missing_role_witness :
    parse_MAJIQ_A3SS_A5SS_group "A3SS"
        [{ gene_id := "ENSG7", seqid := "1", strand := "+", junction_name := "Distal",
           junction_coord := "10-20", spliced_with := "", spliced_with_coord := "" }]
      = ([{ gene_id := "ENSG7", seqid := "1", strand := "+", junction_name := "Distal",
            junction_coord := "10-20", spliced_with := "", spliced_with_coord := "" }],
         none) :=
  majiq_missing_role "A3SS"
    [{ gene_id := "ENSG7", seqid := "1", strand := "+", junction_name := "Distal",
       junction_coord := "10-20", spliced_with := "", spliced_with_coord := "" }]
    (by decide)

/-! ### Claim C5: PSI-Sigma MX deduplication -/

/-- C5 (counterexample): an event region with three pairwise non-overlapping
candidate target exons yields three synthesized merged rows — one per
non-overlapping pairing — not a single lexicographically-first one. -/
theorem psisigma_MX_multiple_pairs_counterexample :
    (parse_psisigma_MX_group "g1" "1" "+" 100 1000
        [(0, "1:200-250"), (1, "1:300-350"), (2, "1:400-450")]).length = 3
    ∧ (3 : ℕ) ≠ 1 := by
  exact ⟨by decide, by decide⟩

/-- C5 (amended): for every event-region group, `parse_psisigma_MX` keeps every
non-overlapping exon pairing — its output is exactly one synthesized merged row
per non-overlapping combination pair of the start-sorted candidate exons (so its
length is the number of such pairs), not one row per region. -/
theorem psisigma_MX_all_pairs (gene chrom strand : String) (rs re : ℤ)
    (exons : List (ℕ × String)) :
    parse_psisigma_MX_group gene chrom strand rs re exons
      = ((pairsOf (sortByStart (psisigmaExonInfo exons))).filter nonOverlap).map
          (mkMXRow gene chrom strand rs re)
    ∧ (parse_psisigma_MX_group gene chrom strand rs re exons).length
      = (pairsOf (sortByStart (psisigmaExonInfo exons))).countP nonOverlap := by
  have key : ∀ ps : List (PsiExon × PsiExon),
      mxEmitPairs gene chrom strand rs re ps
        = (ps.filter nonOverlap).map (mkMXRow gene chrom strand rs re) := by
    intro ps
    induction ps with
    | nil => rfl
    | cons p t ih =>
      unfold mxEmitPairs
      rw [List.filter_cons]
      by_cases hp : nonOverlap p
      · simp only [if_pos hp, List.map_cons, ih]
      · simp only [if_neg hp, ih]
  constructor
  · exact key _
  · show (mxEmitPairs gene chrom strand rs re _).length = _
    rw [key, List.length_map, List.countP_eq_length_filter]

/-! ### Claim C9: ASE membership bounds are inclusive -/

theorem meanCommaPsi_005 : meanCommaPsi "0.05" = some (1/20) := by
  rw [show meanCommaPsi "0.05"
      = some ((((digitsVal ['0'] : ℚ) + (digitsVal ['0', '5'] : ℚ) / (10 : ℚ) ^ (2 : ℕ)) + 0)
          / ((1 : ℕ) : ℚ)) from rfl,
    show digitsVal ['0'] = 0 from by decide, show digitsVal ['0', '5'] = 5 from by decide]
  norm_num

theorem meanCommaPsi_095 : meanCommaPsi "0.95" = some (19/20) := by
  rw [show meanCommaPsi "0.95"
      = some ((((digitsVal ['0'] : ℚ) + (digitsVal ['9', '5'] : ℚ) / (10 : ℚ) ^ (2 : ℕ)) + 0)
          / ((1 : ℕ) : ℚ)) from rfl,
    show digitsVal ['0'] = 0 from by decide, show digitsVal ['9', '5'] = 95 from by decide]
  norm_num

theorem meanCommaPsi_0049 : meanCommaPsi "0.049" = some (49/1000) := by
  rw [show meanCommaPsi "0.049"
      = some ((((digitsVal ['0'] : ℚ)
            + (digitsVal ['0', '4', '9'] : ℚ) / (10 : ℚ) ^ (3 : ℕ)) + 0)
          / ((1 : ℕ) : ℚ)) from rfl,
    show digitsVal ['0'] = 0 from by decide, show digitsVal ['0', '4', '9'] = 49 from by decide]
  norm_num

theorem meanCommaPsi_0951 : meanCommaPsi "0.951" = some (951/1000) := by
  rw [show meanCommaPsi "0.951"
      = some ((((digitsVal ['0'] : ℚ)
            + (digitsVal ['9', '5', '1'] : ℚ) / (10 : ℚ) ^ (3 : ℕ)) + 0)
          / ((1 : ℕ) : ℚ)) from rfl,
    show digitsVal ['0'] = 0 from by decide,
    show digitsVal ['9', '5', '1'] = 951 from by decide]
  norm_num

theorem meanPipePsi_5 : meanPipePsi "5" = some 5 := by
  rw [show meanPipePsi "5" = some (((digitsVal ['5'] : ℚ) + 0) / ((1 : ℕ) : ℚ)) from rfl,
    show digitsVal ['5'] = 5 from by decide]
  norm_num

theorem meanPipePsi_95 : meanPipePsi "95" = some 95 := by
  rw [show meanPipePsi "95" = some (((digitsVal ['9', '5'] : ℚ) + 0) / ((1 : ℕ) : ℚ)) from rfl,
    show digitsVal ['9', '5'] = 95 from by decide]
  norm_num

theorem meanPipePsi_49 : meanPipePsi "4.9" = some (49/10) := by
  rw [show meanPipePsi "4.9"
      = some ((((digitsVal ['4'] : ℚ) + (digitsVal ['9'] : ℚ) / (10 : ℚ) ^ (1 : ℕ)) + 0)
          / ((1 : ℕ) : ℚ)) from rfl,
    show digitsVal ['4'] = 4 from by decide, show digitsVal ['9'] = 9 from by decide]
  norm_num

theorem meanPipePsi_951 : meanPipePsi "95.1" = some (951/10) := by
  rw [show meanPipePsi "95.1"
      = some ((((digitsVal ['9', '5'] : ℚ) + (digitsVal ['1'] : ℚ) / (10 : ℚ) ^ (1 : ℕ)) + 0)
          / ((1 : ℕ) : ℚ)) from rfl,
    show digitsVal ['9', '5'] = 95 from by decide, show digitsVal ['1'] = 1 from by decide]
  norm_num

theorem rmats_ase_mem_iff (rows : List RmatsPsiRow) (uid : String) :
    uid ∈ rmats_test_ase_ids rows ↔
      ∃ r ∈ rows, r.uniform_ID = uid ∧
        ∃ m, meanCommaPsi r.IncLevel1 = some m ∧ 5/100 ≤ m ∧ m ≤ 95/100 := by
  unfold rmats_test_ase_ids
  simp only [List.mem_map, List.mem_filter]
  constructor
  · rintro ⟨r, ⟨hr, hpred⟩, rfl⟩
    refine ⟨r, hr, rfl, ?_⟩
    cases hmean : meanCommaPsi r.IncLevel1 with
    | none =>
      rw [hmean] at hpred
      exact absurd hpred (by simp)
    | some m =>
      rw [hmean] at hpred
      exact ⟨m, rfl, of_decide_eq_true hpred⟩
  · rintro ⟨r, hr, hu, m, hm, hb⟩
    refine ⟨r, ⟨hr, ?_⟩, hu⟩
    rw [hm]
    exact decide_eq_true hb

theorem psisigma_ase_mem_iff (rows : List PsiSigmaPsiRow) (uid : String) :
    uid ∈ psisigma_test_ase_ids rows ↔
      ∃ r ∈ rows, r.uniform_ID = uid ∧
        ∃ m, meanPipePsi r.TValues = some m ∧ (5 : ℚ) ≤ m ∧ m ≤ 95 := by
  unfold psisigma_test_ase_ids
  simp only [List.mem_filter, List.mem_dedup, List.mem_map, List.any_eq_true,
    Bool.and_eq_true, beq_iff_eq]
  constructor
  · rintro ⟨-, r, hr, hu, hpred⟩
    refine ⟨r, hr, hu, ?_⟩
    cases hmean : meanPipePsi r.TValues with
    | none =>
      rw [hmean] at hpred
      exact absurd hpred (by simp)
    | some m =>
      rw [hmean] at hpred
      exact ⟨m, rfl, of_decide_eq_true hpred⟩
  · rintro ⟨r, hr, hu, m, hm, hb⟩
    refine ⟨⟨r, hr, hu⟩, r, hr, hu, ?_⟩
    rw [hm]
    exact decide_eq_true hb

/-- C9: ASE membership bounds are inclusive.  For both the rMATS branch (fraction
scale) and the PSI-Sigma branch (percent scale) of `ase_extract`, a `uniform_ID` is
in the test-group ASE set exactly when some of its rows has a mean inclusion in the
closed interval (`[0.05, 0.95]` resp. `[5, 95]`); a mean of exactly 0.05 or 0.95
(5 or 95 percent) is included, while 0.049 and 0.951 (4.9 and 95.1 percent) are
excluded. -/
theorem ase_membership_inclusive :
    (∀ rows uid, uid ∈ rmats_test_ase_ids rows ↔
      ∃ r ∈ rows, r.uniform_ID = uid ∧
        ∃ m, meanCommaPsi r.IncLevel1 = some m ∧ 5/100 ≤ m ∧ m ≤ 95/100)
    ∧ (∀ rows uid, uid ∈ psisigma_test_ase_ids rows ↔
      ∃ r ∈ rows, r.uniform_ID = uid ∧
        ∃ m, meanPipePsi r.TValues = some m ∧ (5 : ℚ) ≤ m ∧ m ≤ 95)
    ∧ "e" ∈ rmats_test_ase_ids [⟨"e", "0.05"⟩]
    ∧ "e" ∈ rmats_test_ase_ids [⟨"e", "0.95"⟩]
    ∧ "e" ∉ rmats_test_ase_ids [⟨"e", "0.049"⟩]
    ∧ "e" ∉ rmats_test_ase_ids [⟨"e", "0.951"⟩]
    ∧ "e" ∈ psisigma_test_ase_ids [⟨"e", "5"⟩]
    ∧ "e" ∈ psisigma_test_ase_ids [⟨"e", "95"⟩]
    ∧ "e" ∉ psisigma_test_ase_ids [⟨"e", "4.9"⟩]
    ∧ "e" ∉ psisigma_test_ase_ids [⟨"e", "95.1"⟩] := by
  refine ⟨rmats_ase_mem_iff, psisigma_ase_mem_iff, ?_, ?_, ?_, ?_, ?_, ?_, ?_, ?_⟩
  · exact (rmats_ase_mem_iff _ _).2
      ⟨⟨"e", "0.05"⟩, List.mem_singleton.mpr rfl, rfl, 1/20, meanCommaPsi_005,
        by norm_num, by norm_num⟩
  · exact (rmats_ase_mem_iff _ _).2
      ⟨⟨"e", "0.95"⟩, List.mem_singleton.mpr rfl, rfl, 19/20, meanCommaPsi_095,
        by norm_num, by norm_num⟩
  · intro hmem
    obtain ⟨r, hr, -, m, hm, hb1, hb2⟩ := (rmats_ase_mem_iff _ _).1 hmem
    rw [List.mem_singleton] at hr
    subst hr
    rw [meanCommaPsi_0049] at hm
    obtain rfl : (49/1000 : ℚ) = m := Option.some.inj hm
    exact absurd hb1 (by norm_num)
  · intro hmem
    obtain ⟨r, hr, -, m, hm, hb1, hb2⟩ := (rmats_ase_mem_iff _ _).1 hmem
    rw [List.mem_singleton] at hr
    subst hr
    rw [meanCommaPsi_0951] at hm
    obtain rfl : (951/1000 : ℚ) = m := Option.some.inj hm
    exact absurd hb2 (by norm_num)
  · exact (psisigma_ase_mem_iff _ _).2
      ⟨⟨"e", "5"⟩, List.mem_singleton.mpr rfl, rfl, 5, meanPipePsi_5,
        by norm_num, by norm_num⟩
  · exact (psisigma_ase_mem_iff _ _).2
      ⟨⟨"e", "95"⟩, List.mem_singleton.mpr rfl, rfl, 95, meanPipePsi_95,
        by norm_num, by norm_num⟩
  · intro hmem
    obtain ⟨r, hr, -, m, hm, hb1, hb2⟩ := (psisigma_ase_mem_iff _ _).1 hmem
    rw [List.mem_singleton] at hr
    subst hr
    rw [meanPipePsi_49] at hm
    obtain rfl : (49/10 : ℚ) = m := Option.some.inj hm
    exact absurd hb1 (by norm_num)
  · intro hmem
    obtain ⟨r, hr, -, m, hm, hb1, hb2⟩ := (psisigma_ase_mem_iff _ _).1 hmem
    rw [List.mem_singleton] at hr
    subst hr
    rw [meanPipePsi_951] at hm
    obtain rfl : (951/10 : ℚ) = m := Option.some.inj hm
    exact absurd hb2 (by norm_num)

/-! ### Integration lemmas (claims C2, C3, C10) -/

theorem lookupCls_of_mem {t : List (String × CCls)} (hnd : (t.map Prod.fst).Nodup)
    {q : String × CCls} (hq : q ∈ t) : lookupCls t q.1 = some q.2 := by
  induction t with
  | nil => cases hq
  | cons p ps ih =>
    rcases List.mem_cons.1 hq with rfl | hq2
    · unfold lookupCls
      rw [List.find?_cons_of_pos _ (by simp)]
      rfl
    · have hnd2 : (ps.map Prod.fst).Nodup := (List.nodup_cons.1 hnd).2
      have he : p.1 ≠ q.1 := by
        intro he
        have hm : q.1 ∈ ps.map Prod.fst := List.mem_map_of_mem Prod.fst hq2
        exact (List.nodup_cons.1 hnd).1 (he ▸ hm)
      unfold lookupCls
      rw [List.find?_cons_of_neg _ (by simp [he])]
      exact ih hnd2 hq2

theorem lookupCls_mem {t : List (String × CCls)} {k : String} {c : CCls}
    (h : lookupCls t k = some c) : (k, c) ∈ t := by
  unfold lookupCls at h
  cases hf : t.find? (fun p => p.1 == k) with
  | none => rw [hf] at h; cases h
  | some p =>
    rw [hf] at h
    have hp : (p.1 == k) = true := by
      have hq := List.find?_some hf
      exact hq
    have hm : p ∈ t := List.mem_of_find?_eq_some hf
    have h1 : p.1 = k := by simpa using hp
    have h2 : p.2 = c := by simpa using h
    rw [← h1, ← h2]
    exact hm

theorem joinAux_spec : ∀ (ts done : List (List (String × CCls)))
    (acc : List (String × List (Option CCls))),
    (∀ p ∈ acc, p.2 = done.map (fun t => lookupCls t p.1)) →
    (∀ u ∈ done, ∀ q ∈ u, ∃ p ∈ acc, p.1 = q.1) →
    (∀ t ∈ ts, (t.map Prod.fst).Nodup) →
    ∀ p ∈ joinAux done.length acc ts,
      p.2 = (done ++ ts).map (fun t => lookupCls t p.1) := by
  intro ts
  induction ts with
  | nil =>
    intro done acc h1 h2 h3 p hp
    simpa using h1 p hp
  | cons t ts ih =>
    intro done acc h1 h2 h3 p hp
    have hstep : joinAux done.length acc (t :: ts)
        = joinAux (done ++ [t]).length (mergeOuter done.length acc t) ts := by
      simp [joinAux]
    rw [hstep] at hp
    have hndt : (t.map Prod.fst).Nodup := h3 t (List.mem_cons_self t ts)
    have h1' : ∀ p ∈ mergeOuter done.length acc t,
        p.2 = (done ++ [t]).map (fun u => lookupCls u p.1) := by
      intro p hp2
      rcases List.mem_append.1 hp2 with hold | hnew
      · obtain ⟨q, hq, rfl⟩ := List.mem_map.1 hold
        simp only [List.map_append, List.map_cons, List.map_nil]
        rw [h1 q hq]
      · obtain ⟨q, hq, rfl⟩ := List.mem_map.1 hnew
        have hqt : q ∈ t := (List.mem_filter.1 hq).1
        have hnotin := (List.mem_filter.1 hq).2
        rw [decide_eq_true_eq] at hnotin
        have hrep : done.map (fun u => lookupCls u q.1) = List.replicate done.length none := by
          apply List.eq_replicate_iff.2
          refine ⟨by simp, ?_⟩
          intro b hb
          obtain ⟨u, hu, rfl⟩ := List.mem_map.1 hb
          cases hl : lookupCls u q.1 with
          | none => rfl
          | some c =>
            exfalso
            obtain ⟨pa, hpa, hpe⟩ := h2 u hu (q.1, c) (lookupCls_mem hl)
            exact hnotin (List.any_eq_true.2 ⟨pa, hpa, by simp [hpe]⟩)
        simp only [List.map_append, List.map_cons, List.map_nil]
        rw [hrep, lookupCls_of_mem hndt hqt]
    have h2' : ∀ u ∈ done ++ [t], ∀ q ∈ u,
        ∃ p ∈ mergeOuter done.length acc t, p.1 = q.1 := by
      intro u hu q hq
      rcases List.mem_append.1 hu with hud | hut
      · obtain ⟨pa, hpa, hpe⟩ := h2 u hud q hq
        exact ⟨(pa.1, pa.2 ++ [lookupCls t pa.1]),
          List.mem_append.2 (Or.inl (List.mem_map.2 ⟨pa, hpa, rfl⟩)), hpe⟩
      · have hut2 : u = t := by simpa using hut
        subst hut2
        by_cases hacc : acc.any (fun p => p.1 == q.1) = true
        · obtain ⟨pa, hpa, hpe⟩ := List.any_eq_true.1 hacc
          rw [beq_iff_eq] at hpe
          exact ⟨(pa.1, pa.2 ++ [lookupCls u pa.1]),
            List.mem_append.2 (Or.inl (List.mem_map.2 ⟨pa, hpa, rfl⟩)), hpe⟩
        · refine ⟨(q.1, List.replicate done.length none ++ [some q.2]), ?_, rfl⟩
          apply List.mem_append.2
          right
          apply List.mem_map.2
          refine ⟨q, ?_, rfl⟩
          exact List.mem_filter.2 ⟨hq, decide_eq_true hacc⟩
    have h3' : ∀ u ∈ ts, (u.map Prod.fst).Nodup :=
      fun u hu => h3 u (List.mem_cons_of_mem t hu)
    have hres := ih (done ++ [t]) (mergeOuter done.length acc t) h1' h2' h3' p hp
    rw [List.append_assoc] at hres
    simpa using hres

/-! ### Claim C2: consensus-table semantics -/

/-- C2: the Integrator's outer join on `uniform_ID` gives every joined event one
`Option` class column per tool (its looked-up collapsed class, missing when the
tool did not report the event); `sum` equals the number of tools whose collapsed
class is `DSE` (a missing column is not counted); and for every support threshold
`n ∈ [1, num_tools]` (loop index `n - 1`) the consensus class is `DSE` iff
`sum > n - 1`. -/
theorem integration_consensus_semantics
    (tabs : List (List (String × DseClass)))
    (hnd : ∀ t ∈ tabs, ((collapseTable t).map Prod.fst).Nodup)
    (uid : String) (cols : List (Option CCls))
    (hmem : (uid, cols) ∈ joinTables (tabs.map collapseTable)) :
    cols = (tabs.map collapseTable).map (fun t => lookupCls t uid)
    ∧ supportCount cols
        = (tabs.map collapseTable).countP
            (fun t => decide (lookupCls t uid = some CCls.dse))
    ∧ ∀ n, 1 ≤ n → n ≤ tabs.length →
        (consensusClass (n - 1) cols = CCls.dse ↔ supportCount cols > n - 1) := by
  have h0 := joinAux_spec (tabs.map collapseTable) [] []
    (fun p hp => absurd hp (List.not_mem_nil p))
    (fun u hu => absurd hu (List.not_mem_nil u))
    (fun t ht => by
      obtain ⟨u, hu, rfl⟩ := List.mem_map.1 ht
      exact hnd u hu)
    (uid, cols) hmem
  have hcols : cols = (tabs.map collapseTable).map (fun t => lookupCls t uid) := by
    simpa using h0
  refine ⟨hcols, ?_, ?_⟩
  · rw [hcols]
    unfold supportCount
    rw [List.countP_map]
    rfl
  · intro n h1 h2
    unfold consensusClass
    split_ifs with h
    · exact ⟨fun _ => h, fun _ => rfl⟩
    · exact ⟨fun he => absurd he (by decide), fun hc => absurd hc h⟩

/-- Witness for C2: two tools, an event `e1` reported by both (DSE by the first
only) and an event `e2` reported only by the second. -/
theorem integration_consensus_semantics_witness :
    [some CCls.dse, some CCls.nonDse]
        = ([[("e1", DseClass.up)], [("e1", DseClass.nonDse), ("e2", DseClass.down)]].map
            collapseTable).map (fun t => lookupCls t "e1")
    ∧ supportCount [some CCls.dse, some CCls.nonDse]
        = ([[("e1", DseClass.up)], [("e1", DseClass.nonDse), ("e2", DseClass.down)]].map
            collapseTable).countP (fun t => decide (lookupCls t "e1" = some CCls.dse))
    ∧ ∀ n, 1 ≤ n →
        n ≤ [[("e1", DseClass.up)], [("e1", DseClass.nonDse), ("e2", DseClass.down)]].length →
        (consensusClass (n - 1) [some CCls.dse, some CCls.nonDse] = CCls.dse ↔
          supportCount [some CCls.dse, some CCls.nonDse] > n - 1) :=
  integration_consensus_semantics
    [[("e1", DseClass.up)], [("e1", DseClass.nonDse), ("e2", DseClass.down)]]
    (by decide) "e1" [some CCls.dse, some CCls.nonDse] (by decide)

/-! ### Claim C3: integration monotonicity -/

/-- C3: for every integration run and every pair of support thresholds
`1 ≤ n1 < n2 ≤ num_tools`, a joined event whose consensus class is `DSE` at
threshold `n2` also has consensus class `DSE` at threshold `n1`: the
consensus-DSE set is antitone in the threshold. -/
theorem integration_monotonicity
    (tabs : List (List (String × CCls))) (n1 n2 : ℕ)
    (h1 : 1 ≤ n1) (h12 : n1 < n2) (h2 : n2 ≤ tabs.length) :
    ∀ uid cols, (uid, cols) ∈ joinTables tabs →
      consensusClass (n2 - 1) cols = CCls.dse → consensusClass (n1 - 1) cols = CCls.dse := by
  intro uid cols hmem hc
  unfold consensusClass at hc ⊢
  by_cases h : supportCount cols > n2 - 1
  · rw [if_pos (by omega)]
  · rw [if_neg h] at hc
    exact absurd hc (by decide)

/-- Witness for C3: two tools both calling `e` DSE; consensus-DSE at threshold 2
implies consensus-DSE at threshold 1. -/
theorem integration_monotonicity_witness :
    consensusClass (1 - 1) [some CCls.dse, some CCls.dse] = CCls.dse :=
  integration_monotonicity [[("e", CCls.dse)], [("e", CCls.dse)]] 1 2
    (by decide) (by decide) (by decide) "e" [some CCls.dse, some CCls.dse]
    (by decide) (by decide)

/-! ### Claim C10: frame property of the integration outputs -/

/-- C10: within one integration run, the serialized tables for different support
thresholds agree on everything except the consensus `class` column: the
`uniform_ID` rows, the per-tool class columns, and the `sum` column are identical
across all thresholds, and only `class` (computed from `sum` and the threshold)
varies. -/
theorem integration_frame_property (ts : List (List (String × CCls))) (n1 n2 : ℕ) :
    (integrationOutput ts n1).map (fun r => (r.uniform_ID, r.toolCols, r.sum))
      = (integrationOutput ts n2).map (fun r => (r.uniform_ID, r.toolCols, r.sum))
    ∧ (integrationOutput ts n1).length = (integrationOutput ts n2).length
    ∧ ∀ r ∈ integrationOutput ts n1,
        r.cls = consensusClass n1 r.toolCols ∧ r.sum = supportCount r.toolCols := by
  refine ⟨?_, ?_, ?_⟩
  · simp only [integrationOutput, List.map_map]
    rfl
  · simp [integrationOutput]
  · intro r hr
    obtain ⟨p, hp, rfl⟩ := List.mem_map.1 hr
    exact ⟨rfl, rfl⟩
